import Mathlib

/-!
Shallow embedding of the youtube-transcription-pipeline repository
(`main.py`, `youtube_downloader.py`, `transcript_processor.py`).

The catalog service (Supabase tables `channels`, `videos`, `transcripts`,
`processed_content`) is modelled as an explicit in-memory state threaded
through the operations.  External collaborators are modelled as function
parameters: the inference service is an oracle from processing type and
rendered prompt to a response-or-exception, the media fetch engine is an
oracle from external video id to success/failure, the filesystem is a list
of (path, read-result) pairs, and JSON parsing (`json.loads`) is a
parameter `jsonParse : String → Option J` over an abstract parsed-value
type `J`.  Wall-clock times (`datetime.now()`, elapsed milliseconds) are
supplied as parameters since real time is outside the embedding.
-/

/-! ### Models of the Python string primitives used by the source -/

/-- Python slicing `s[:n]` (by code points, as in Python). -/
def pySlice (s : String) (n : Nat) : String :=
  String.mk (s.toList.take n)

/-- The final path component, as `pathlib.PurePath.name` computes it for
ordinary file paths (everything after the last `/`). -/
def pyName (path : String) : String :=
  String.mk ((path.toList.reverse.takeWhile (fun c => c != '/')).reverse)

/-- Index of the last occurrence of `c`, i.e. Python `str.rfind`. -/
def lastIndexOf (c : Char) : List Char → Option Nat
  | [] => none
  | x :: xs =>
    match lastIndexOf c xs with
    | some j => some (j + 1)
    | none => if x == c then some 0 else none

/-- Python `pathlib.PurePath.stem`: the final component with its last suffix
removed (the suffix must start after position 0 and before the end). -/
def pyStem (path : String) : String :=
  let name := (pyName path).toList
  match lastIndexOf '.' name with
  | some i => if 0 < i ∧ i < name.length - 1 then String.mk (name.take i) else String.mk name
  | none => String.mk name

/-- Worker for `strReplace`: replaces each leftmost, non-overlapping
occurrence of `p :: ps` by `rep`.  The fuel argument only totalizes the
recursion: every step consumes at least one character of the scanned list,
so fuel equal to the scanned list's length (as supplied by `strReplace`)
is never exhausted. -/
def replaceFuel (p : Char) (ps rep : List Char) : Nat → List Char → List Char
  | _, [] => []
  | 0, cs => cs
  | fuel + 1, c :: cs =>
    if (p :: ps).isPrefixOf (c :: cs) then
      rep ++ replaceFuel p ps rep fuel (cs.drop ps.length)
    else
      c :: replaceFuel p ps rep fuel cs

/-- Python `s.replace(pat, rep)` (all leftmost non-overlapping occurrences).
The empty-pattern case (which Python treats as inserting `rep` between all
characters) is left as the identity; the source only replaces the
non-empty pattern `"_transcript"`. -/
def strReplace (s pat rep : String) : String :=
  match pat.toList with
  | [] => s
  | p :: ps => String.mk (replaceFuel p ps rep.toList s.toList.length s.toList)

/-- Python `s.split(sep, 1)`: split at the first occurrence of `sep` only
(the part before the first separator and everything after it). -/
def pySplit1 (s : String) (sep : Char) : List String :=
  match s.toList.dropWhile (fun c => c != sep) with
  | [] => [s]
  | _ :: rest => [String.mk (s.toList.takeWhile (fun c => c != sep)), String.mk rest]

/-- Python `len(s.split())`: number of maximal whitespace-free runs. -/
def pyWordCount (s : String) : Nat :=
  ((s.split (fun c => c.isWhitespace)).filter (fun w => w != "")).length

/-- Python `os.path.join` for the two-argument form used by the source: an
absolute second part wins, and a separator is added unless the first
part already ends with one. -/
def pathJoin (a b : String) : String :=
  if a = "" then b
  else if "/".toList.isPrefixOf b.toList then b
  else if "/".toList.isSuffixOf a.toList then a ++ b
  else a ++ "/" ++ b

/-- Python `s.endswith(suffix)`. -/
def pyEndsWith (s suffix : String) : Bool :=
  suffix.toList.isSuffixOf s.toList

/-- SQL `ILIKE` pattern matching as Postgres implements it (used by the
Supabase `.ilike` filter): `%` matches any sequence, `_` matches any
single character, and other characters match case-insensitively.  The
fuel argument only totalizes the recursion: every recursive call shrinks
`pattern.length + text.length`, so the fuel supplied by `ilike` (that sum
plus one) is never exhausted. -/
def ilikeFuel : Nat → List Char → List Char → Bool
  | 0, _, _ => false
  | _ + 1, [], ts => ts.isEmpty
  | fuel + 1, '%' :: ps, ts =>
    ilikeFuel fuel ps ts ||
      (match ts with
       | [] => false
       | _ :: ts2 => ilikeFuel fuel ('%' :: ps) ts2)
  | fuel + 1, '_' :: ps, ts =>
    (match ts with
     | [] => false
     | _ :: ts2 => ilikeFuel fuel ps ts2)
  | fuel + 1, p :: ps, ts =>
    (match ts with
     | [] => false
     | t :: ts2 => (p.toLower == t.toLower) && ilikeFuel fuel ps ts2)

/-- Whether `text ILIKE pattern` holds. -/
def ilike (pattern text : String) : Bool :=
  ilikeFuel (pattern.toList.length + text.toList.length + 1) pattern.toList text.toList

/-- Whether `needle` occurs contiguously inside `hay`. -/
def isInfixList (needle : List Char) : List Char → Bool
  | [] => needle.isEmpty
  | c :: cs => needle.isPrefixOf (c :: cs) || isInfixList needle cs

/-- Case-insensitive literal substring containment.  This is the
spec-side reading of §4.3's "case-insensitive substring search", stated
for comparison with the `ilike` semantics the code actually invokes. -/
def substringCI (needle hay : String) : Bool :=
  isInfixList (needle.toList.map Char.toLower) (hay.toList.map Char.toLower)

/-! ### Data model: the catalog rows -/

/-- A row of the `channels` table. -/
structure Channel where
  id : Nat
  channel_id : String
  channel_name : String
  channel_url : String
  is_active : Bool
deriving Repr, DecidableEq

/-- A row of the `videos` table. -/
structure Video where
  id : Nat
  channel_id : Nat
  video_id : String
  title : String
  description : String
  duration : Nat
  upload_date : Option String
  thumbnail_url : String
  video_url : String
  download_status : String
  downloaded_at : Option String := none
  file_path : Option String := none
deriving Repr, DecidableEq

/-- A row of the `transcripts` table. -/
structure Transcript where
  id : Nat
  video_id : Nat
  raw_transcript : String
  transcript_format : String
  word_count : Nat
  language : String
  transcribed_at : String
deriving Repr, DecidableEq

/-- The four processing types of `TranscriptProcessor.prompts`. -/
inductive ProcessType where
  | summary
  | chapters
  | keywords
  | insights
deriving Repr, DecidableEq

/-- The semi-structured `content` payload stored per processed-content
row: `keywords` stores a comma-split list, a successful `insights` parse
stores the parsed structure, a failed parse stores a raw wrapper, and the
other types store a content wrapper. -/
inductive Content (J : Type) where
  | keywords (ks : List String)
  | parsed (j : J)
  | raw (s : String)
  | wrapped (s : String)
deriving Repr, DecidableEq

/-- A row of the `processed_content` table. -/
structure ProcessedContent (J : Type) where
  transcript_id : Nat
  processing_type : ProcessType
  content : Content J
  model_used : String
  tokens_used : Option Nat
  processing_time_ms : Nat
deriving Repr, DecidableEq

/-- The catalog state: the four tables plus the next database-assigned
primary keys for the two tables the code inserts rows into by id. -/
structure Catalog (J : Type) where
  channels : List Channel
  videos : List Video
  transcripts : List Transcript
  artifacts : List (ProcessedContent J)
  nextVid : Nat
  nextTid : Nat
deriving Repr, DecidableEq

/-- A response from the inference service: the message content, the
reported token usage (absent when the provider does not report it), and
the elapsed wall time the code measures around the call. -/
structure LLMResp where
  content : String
  total_tokens : Option Nat
  elapsed_ms : Nat
deriving Repr, DecidableEq

/-! ### Transcript processor (`transcript_processor.py`) -/

variable {J : Type}

/-- The prompt templates of `TranscriptProcessor.prompts` (dictionary
insertion order: summary, chapters, keywords, insights). -/
def prompts : ProcessType → String
  | .summary => "Summarize this YouTube video transcript in 3-5 paragraphs. Include key points and main takeaways. Transcript: {transcript}"
  | .chapters => "Create chapter timestamps for this video transcript. Format each line as: [HH:MM:SS] Chapter Title. Transcript: {transcript}"
  | .keywords => "Extract 10-15 important keywords/phrases from this transcript. Focus on technical terms, topics, and key concepts. Return as a comma-separated list. Transcript: {transcript}"
  | .insights => "Analyze this transcript and provide: 1. Main topic and subtopics, 2. Key insights or learnings, 3. Actionable takeaways, 4. Related topics to explore. Format as JSON. Transcript: {transcript}"

/-- The model table of `TranscriptProcessor.models`. -/
def models : ProcessType → String
  | .summary => "anthropic/claude-3-haiku"
  | .chapters => "openai/gpt-4-turbo"
  | .keywords => "anthropic/claude-3-haiku"
  | .insights => "anthropic/claude-3-sonnet"

/-- Iteration order of `self.prompts.items()`. -/
def processTypes : List ProcessType :=
  [.summary, .chapters, .keywords, .insights]

/-- Python `str.format(transcript=arg)` for the templates above, which
contain the single placeholder and no other braces. -/
def pyFormat (template arg : String) : String :=
  strReplace template "{transcript}" arg

/-- Line 125 of `transcript_processor.py`:
`prompt = prompt_template.format(transcript=transcript_text[:8000])`. -/
def renderedPrompt (ty : ProcessType) (transcript_text : String) : String :=
  pyFormat (prompts ty) (pySlice transcript_text 8000)

/-- The rendered prompt with the transcript substituted empty: the
template text surrounding the substitution point. -/
def promptPrefix (ty : ProcessType) : String :=
  pyFormat (prompts ty) ""

/-- Lines 142-150 of `transcript_processor.py`: type-specific parsing of
the model response (`keywords` comma-splits and strips, `insights`
attempts a JSON parse with a raw-text fallback, others wrap the text). -/
def parseContent (jsonParse : String → Option J) (ty : ProcessType) (content : String) :
    Content J :=
  match ty with
  | .keywords => .keywords (((content.splitOn ",").map (fun k => k.trim)))
  | .insights =>
    match jsonParse content with
    | some j => .parsed j
    | none => .raw content
  | _ => .wrapped content

/-- The `processed_content` row inserted at lines 155-162 for one task. -/
def mkArtifact (jsonParse : String → Option J) (transcript_id : Nat) (ty : ProcessType)
    (resp : LLMResp) : ProcessedContent J :=
  { transcript_id := transcript_id
    processing_type := ty
    content := parseContent jsonParse ty resp.content
    model_used := models ty
    tokens_used := resp.total_tokens
    processing_time_ms := resp.elapsed_ms }

/-- One iteration of the loop in `TranscriptProcessor.process_with_ai`
(lines 120-167).  The inference call is the oracle applied to the
processing type and the rendered prompt; an exception from it is caught
by the per-task `except` and leaves the catalog unchanged. -/
def processTask (jsonParse : String → Option J)
    (oracle : ProcessType → String → Except Unit LLMResp)
    (transcript_id : Nat) (transcript_text : String)
    (st : Catalog J) (ty : ProcessType) : Catalog J :=
  let prompt := renderedPrompt ty transcript_text
  match oracle ty prompt with
  | .error _ => st
  | .ok resp =>
    { st with artifacts := st.artifacts ++ [mkArtifact jsonParse transcript_id ty resp] }

/-- Source `TranscriptProcessor.process_with_ai`: the fan-out over the four
processing types, in dictionary order. -/
def process_with_ai (jsonParse : String → Option J)
    (oracle : ProcessType → String → Except Unit LLMResp)
    (transcript_id : Nat) (transcript_text : String) (st : Catalog J) : Catalog J :=
  processTypes.foldl (processTask jsonParse oracle transcript_id transcript_text) st

/-- Source `TranscriptProcessor.find_video_by_filename` (lines 67-83): strip the
path and extension, drop `_transcript`, split once on `_`; with a date
part and a title part present, filter the `videos` table with
`ilike('title', '%' + title_part[:20] + '%')` and return the first row. -/
def find_video_by_filename (videos : List Video) (transcript_path : String) : Option Video :=
  let filename := strReplace (pyStem transcript_path) "_transcript" ""
  match pySplit1 filename '_' with
  | [_date_str, title_part] =>
    (videos.filter (fun v => ilike ("%" ++ pySlice title_part 20 ++ "%") v.title)).head?
  | _ => none

/-- Source `TranscriptProcessor.process_transcript` (lines 85-116).  `readResult`
is the outcome of `open(...).read()`; an exception there, like any other
exception in the body, is caught by the outer `except` which only logs,
so the function always returns the catalog it reached.  On a successful
read with a matched video it inserts the `transcripts` row (full original
text, whitespace word count) and fans out to `process_with_ai`. -/
def process_transcript (jsonParse : String → Option J)
    (oracle : ProcessType → String → Except Unit LLMResp) (now : String)
    (readResult : Except Unit String) (transcript_path : String)
    (st : Catalog J) : Catalog J :=
  match readResult with
  | .error _ => st
  | .ok transcript_text =>
    match find_video_by_filename st.videos transcript_path with
    | none => st
    | some video =>
      let tid := st.nextTid
      let st1 : Catalog J :=
        { st with
          transcripts := st.transcripts ++
            [{ id := tid
               video_id := video.id
               raw_transcript := transcript_text
               transcript_format := "txt"
               word_count := pyWordCount transcript_text
               language := "en"
               transcribed_at := now }]
          nextTid := st.nextTid + 1 }
      process_with_ai jsonParse oracle tid transcript_text st1

/-- Source `TranscriptProcessor.scan_existing_transcripts` (lines 169-183): for
each file the recursive glob for `*_transcript.txt` returned (modelled as
the `files` list of path and read-result), resolve the video and invoke
`process_transcript` only when no `transcripts` row for that video
exists. -/
def scan_existing_transcripts (jsonParse : String → Option J)
    (oracle : ProcessType → String → Except Unit LLMResp) (now : String)
    (files : List (String × Except Unit String)) (st : Catalog J) : Catalog J :=
  files.foldl
    (fun s pf =>
      match find_video_by_filename s.videos pf.1 with
      | none => s
      | some video =>
        if s.transcripts.any (fun t => t.video_id == video.id) then s
        else process_transcript jsonParse oracle now pf.2 pf.1 s)
    st

/-- Source `TranscriptHandler.on_created` (lines 29-34): a filesystem creation
event for a non-directory path ending in `_transcript.txt` invokes
`process_transcript` (after a settle delay, which has no catalog effect
and is not modelled).  There is no transcript-existence check on this
path. -/
def on_created (jsonParse : String → Option J)
    (oracle : ProcessType → String → Except Unit LLMResp) (now : String)
    (is_directory : Bool) (src_path : String) (readResult : Except Unit String)
    (st : Catalog J) : Catalog J :=
  if !is_directory && pyEndsWith src_path "_transcript.txt" then
    process_transcript jsonParse oracle now readResult src_path st
  else st

/-! ### Acquisition engine (`youtube_downloader.py`) -/

/-- One media entry returned by the fetch engine's channel listing.  The
`entry.get(key, default)` accesses in the source are modelled by `Option`
fields read with `getD`. -/
structure Entry where
  id : String
  title : Option String
  description : Option String
  duration : Option Nat
  upload_date : Option String
  thumbnail : Option String
  channel : Option String
deriving Repr, DecidableEq

/-- The `videos` row inserted at lines 119-132 before the fetch attempt. -/
def insertVideo (st : Catalog J) (channel_db_id : Nat) (e : Entry) : Catalog J :=
  { st with
    nextVid := st.nextVid + 1
    videos := st.videos ++
      [{ id := st.nextVid
         channel_id := channel_db_id
         video_id := e.id
         title := e.title.getD ""
         description := e.description.getD ""
         duration := e.duration.getD 0
         upload_date := e.upload_date
         thumbnail_url := e.thumbnail.getD ""
         video_url := "https://www.youtube.com/watch?v=" ++ e.id
         download_status := "downloading" }] }

/-- The `file_path` written on download success (line 144). -/
def downloadedFilePath (watched_folder : String) (e : Entry) : String :=
  pathJoin watched_folder
    (e.channel.getD "unknown" ++ "/" ++ e.upload_date.getD "" ++ "_" ++
      e.title.getD "" ++ ".mp4")

/-- The status update on download success (lines 141-145). -/
def updateCompleted (st : Catalog J) (video_db_id : Nat) (now watched_folder : String)
    (e : Entry) : Catalog J :=
  { st with
    videos := st.videos.map (fun v =>
      if v.id == video_db_id then
        { v with
          download_status := "completed"
          downloaded_at := some now
          file_path := some (downloadedFilePath watched_folder e) }
      else v) }

/-- The status update on download failure (lines 151-153). -/
def updateFailed (st : Catalog J) (video_db_id : Nat) : Catalog J :=
  { st with
    videos := st.videos.map (fun v =>
      if v.id == video_db_id then { v with download_status := "failed" } else v) }

/-- Lines 119-153 for one new entry: insert the `downloading` row, then
attempt the fetch (the `dl` oracle); success updates the row to
`completed` with timestamp and file path, failure (an exception caught by
the inner `except`) updates it to `failed`. -/
def afterEntry (dl : String → Bool) (now watched_folder : String) (channel_db_id : Nat)
    (st : Catalog J) (e : Entry) : Catalog J :=
  let video_db_id := st.nextVid
  let st1 := insertVideo st channel_db_id e
  if dl e.id then updateCompleted st1 video_db_id now watched_folder e
  else updateFailed st1 video_db_id

/-- The entry loop of `download_channel_videos` (lines 106-153): stop once
`videos_processed` (successful downloads) reaches the cap, skip entries
whose external id already has a `videos` row, otherwise handle the entry
and count it only on success. -/
def downloadLoop (dl : String → Bool) (now watched_folder : String)
    (max_videos channel_db_id : Nat) :
    List Entry → Nat → Catalog J → Catalog J
  | [], _, st => st
  | e :: rest, videos_processed, st =>
    if max_videos ≤ videos_processed then st
    else if st.videos.any (fun v => v.video_id == e.id) then
      downloadLoop dl now watched_folder max_videos channel_db_id rest videos_processed st
    else
      downloadLoop dl now watched_folder max_videos channel_db_id rest
        (if dl e.id then videos_processed + 1 else videos_processed)
        (afterEntry dl now watched_folder channel_db_id st e)

/-- Source `YouTubeDownloader.download_channel_videos` (lines 86-158): look the
channel up by external id (the `.single()` call errors unless exactly one
row matches; that error, like any other in the outer `try`, is caught and
leaves the catalog unchanged), then run the entry loop over the first
`max_videos` listed entries.  The channel listing itself (the outcome of
`ydl.extract_info`) is supplied as the `entries` parameter. -/
def download_channel_videos (dl : String → Bool) (now watched_folder : String)
    (max_videos : Nat) (entries : List Entry) (channel_id : String)
    (st : Catalog J) : Catalog J :=
  match st.channels.filter (fun c => c.channel_id == channel_id) with
  | [c] =>
    downloadLoop dl now watched_folder max_videos c.id (entries.take max_videos) 0 st
  | _ => st

/-! ### Helper lemmas -/

theorem mem_of_head?_eq {α : Type} {l : List α} {a : α} (h : l.head? = some a) : a ∈ l := by
  cases l <;> simp_all

/-- One task either leaves the catalog unchanged (the task raised) or
appends exactly its artifact row. -/
theorem processTask_eq (jsonParse : String → Option J)
    (oracle : ProcessType → String → Except Unit LLMResp)
    (tid : Nat) (text : String) (st : Catalog J) (ty : ProcessType) :
    processTask jsonParse oracle tid text st ty =
      { st with artifacts := st.artifacts ++
          ((oracle ty (renderedPrompt ty text)).toOption.map (mkArtifact jsonParse tid ty)).toList } := by
  unfold processTask
  cases h : oracle ty (renderedPrompt ty text) <;> simp [Except.toOption, h]

theorem foldl_processTask_eq (jsonParse : String → Option J)
    (oracle : ProcessType → String → Except Unit LLMResp) (tid : Nat) (text : String) :
    ∀ (l : List ProcessType) (st : Catalog J),
      l.foldl (processTask jsonParse oracle tid text) st =
        { st with artifacts := st.artifacts ++
            l.filterMap (fun ty =>
              (oracle ty (renderedPrompt ty text)).toOption.map (mkArtifact jsonParse tid ty)) } := by
  intro l
  induction l with
  | nil => intro st; simp
  | cons ty l ih =>
    intro st
    rw [List.foldl_cons, processTask_eq, ih]
    cases h : oracle ty (renderedPrompt ty text) <;>
      simp [Except.toOption, h, List.filterMap_cons]

/-- The whole fan-out appends one artifact row per non-raising task, in
order, and touches nothing else in the catalog. -/
theorem process_with_ai_eq (jsonParse : String → Option J)
    (oracle : ProcessType → String → Except Unit LLMResp)
    (tid : Nat) (text : String) (st : Catalog J) :
    process_with_ai jsonParse oracle tid text st =
      { st with artifacts := st.artifacts ++
          processTypes.filterMap (fun ty =>
            (oracle ty (renderedPrompt ty text)).toOption.map (mkArtifact jsonParse tid ty)) } :=
  foldl_processTask_eq jsonParse oracle tid text processTypes st

/-- The matcher only ever returns a row of the `videos` table. -/
theorem find_video_by_filename_mem {videos : List Video} {path : String} {v : Video}
    (h : find_video_by_filename videos path = some v) : v ∈ videos := by
  simp only [find_video_by_filename] at h
  split at h
  · exact List.mem_of_mem_filter (mem_of_head?_eq h)
  · exact absurd h (by simp)

/-- The transcripts row inserted by `process_transcript` (lines 100-107). -/
def newTranscriptRow (now text : String) (tid vid : Nat) : Transcript :=
  { id := tid
    video_id := vid
    raw_transcript := text
    transcript_format := "txt"
    word_count := pyWordCount text
    language := "en"
    transcribed_at := now }

theorem process_transcript_of_match (jsonParse : String → Option J)
    (oracle : ProcessType → String → Except Unit LLMResp) (now text path : String)
    (st : Catalog J) (video : Video)
    (hmatch : find_video_by_filename st.videos path = some video) :
    process_transcript jsonParse oracle now (.ok text) path st =
      { st with
        transcripts := st.transcripts ++ [newTranscriptRow now text st.nextTid video.id]
        artifacts := st.artifacts ++
          processTypes.filterMap (fun ty =>
            (oracle ty (renderedPrompt ty text)).toOption.map (mkArtifact jsonParse st.nextTid ty))
        nextTid := st.nextTid + 1 } := by
  unfold process_transcript
  simp only [hmatch]
  rw [process_with_ai_eq]
  rfl

/-- The function `process_transcript` never touches the `videos` table. -/
theorem process_transcript_videos (jsonParse : String → Option J)
    (oracle : ProcessType → String → Except Unit LLMResp) (now : String)
    (readResult : Except Unit String) (path : String) (st : Catalog J) :
    (process_transcript jsonParse oracle now readResult path st).videos = st.videos := by
  cases readResult with
  | error e => rfl
  | ok text =>
    cases h : find_video_by_filename st.videos path with
    | none => unfold process_transcript; simp [h]
    | some video => rw [process_transcript_of_match jsonParse oracle now text path st video h]

theorem mem_of_mem_takeWhile {α : Type} {p : α → Bool} {a : α} :
    ∀ {l : List α}, a ∈ l.takeWhile p → a ∈ l := by
  intro l
  induction l with
  | nil => simp [List.takeWhile]
  | cons x xs ih =>
    intro h
    rw [List.takeWhile_cons] at h
    by_cases hp : p x = true
    · simp [hp] at h
      rcases h with h | h
      · simp [h]
      · exact List.mem_cons_of_mem x (ih h)
    · simp [hp] at h

theorem mem_of_mem_pyName {c : Char} {path : String}
    (h : c ∈ (pyName path).toList) : c ∈ path.toList := by
  unfold pyName at h
  simp only [String.toList] at h
  rw [List.mem_reverse] at h
  have := mem_of_mem_takeWhile h
  rwa [List.mem_reverse] at this

theorem mem_of_mem_pyStem {c : Char} {path : String}
    (h : c ∈ (pyStem path).toList) : c ∈ path.toList := by
  have key : c ∈ (pyName path).toList := by
    simp only [pyStem] at h
    split at h
    · split at h
      · exact (List.take_sublist _ _).subset h
      · exact h
    · exact h
  exact mem_of_mem_pyName key

theorem replaceFuel_of_head_notMem {p : Char} (ps rep : List Char) :
    ∀ (cs : List Char) (fuel : Nat), p ∉ cs → replaceFuel p ps rep fuel cs = cs := by
  intro cs
  induction cs with
  | nil => intro fuel _; cases fuel <;> rfl
  | cons c cs ih =>
    intro fuel h
    cases fuel with
    | zero => rfl
    | succ fuel =>
      have hne : ¬ (p == c) = true := by
        simp only [beq_iff_eq]
        intro hc
        exact h (by simp [hc])
      rw [replaceFuel]
      rw [if_neg (by simp [List.isPrefixOf, hne])]
      rw [ih fuel (fun hm => h (List.mem_cons_of_mem c hm))]

theorem strReplace_transcript_of_no_underscore {s : String}
    (h : '_' ∉ s.toList) : strReplace s "_transcript" "" = s := by
  show String.mk (replaceFuel '_' "transcript".toList "".toList s.toList.length s.toList) = s
  rw [replaceFuel_of_head_notMem _ _ _ _ h]
  rfl

theorem pySplit1_of_notMem {s : String} {sep : Char}
    (h : sep ∉ s.toList) : pySplit1 s sep = [s] := by
  unfold pySplit1
  have : s.toList.dropWhile (fun c => c != sep) = [] := by
    rw [List.dropWhile_eq_nil_iff]
    intro x hx
    simp only [bne_iff_ne, ne_eq]
    intro he
    exact h (he ▸ hx)
  rw [this]

/-- With no underscore anywhere in the artifact path, the split yields a
single part and the matcher reaches its not-found fallthrough. -/
theorem find_video_of_no_underscore (videos : List Video) (path : String)
    (h : '_' ∉ path.toList) : find_video_by_filename videos path = none := by
  have hstem : '_' ∉ (pyStem path).toList := fun hm => h (mem_of_mem_pyStem hm)
  simp only [find_video_by_filename, strReplace_transcript_of_no_underscore hstem,
    pySplit1_of_notMem hstem]

/-! ### Counting lemmas for the acquisition dedup key -/

/-- Number of `videos` rows carrying a given external video identifier. -/
def countId (st : Catalog J) (x : String) : Nat :=
  st.videos.countP (fun v => v.video_id == x)

theorem countId_insertVideo (st : Catalog J) (ch : Nat) (e : Entry) (x : String) :
    countId (insertVideo st ch e) x = countId st x + (if e.id == x then 1 else 0) := by
  unfold countId insertVideo
  rw [List.countP_append]
  simp [List.countP_cons]

theorem countId_map_preserving (st : Catalog J) (f : Video → Video)
    (hf : ∀ v, (f v).video_id = v.video_id) (x : String) :
    countId { st with videos := st.videos.map f } x = countId st x := by
  unfold countId
  rw [List.countP_map]
  apply List.countP_congr
  intro v _
  simp [Function.comp, hf v]

theorem countId_updateCompleted (st : Catalog J) (dbId : Nat) (now w : String) (e : Entry)
    (x : String) : countId (updateCompleted st dbId now w e) x = countId st x := by
  apply countId_map_preserving
  intro v
  by_cases h : (v.id == dbId) = true <;> simp [updateCompleted, h]

theorem countId_updateFailed (st : Catalog J) (dbId : Nat) (x : String) :
    countId (updateFailed st dbId) x = countId st x := by
  apply countId_map_preserving
  intro v
  by_cases h : (v.id == dbId) = true <;> simp [updateFailed, h]

theorem countId_afterEntry (dl : String → Bool) (now w : String) (ch : Nat)
    (st : Catalog J) (e : Entry) (x : String) :
    countId (afterEntry dl now w ch st e) x = countId st x + (if e.id == x then 1 else 0) := by
  simp only [afterEntry]
  by_cases h : dl e.id = true
  · rw [if_pos h, countId_updateCompleted, countId_insertVideo]
  · rw [if_neg h, countId_updateFailed, countId_insertVideo]

theorem countId_eq_zero_of_any_eq_false {st : Catalog J} {y : String}
    (h : st.videos.any (fun v => v.video_id == y) = false) : countId st y = 0 := by
  unfold countId
  rw [List.countP_eq_zero]
  intro v hv
  have := List.any_eq_false.mp h v hv
  simpa using this

/-- Through the entry loop, the per-identifier row count never exceeds
its starting value (when positive, since then every matching entry is
skipped) and never exceeds one (a row is only inserted when none with
that identifier exists). -/
theorem countId_downloadLoop_le (dl : String → Bool) (now w : String)
    (maxV ch : Nat) (x : String) :
    ∀ (entries : List Entry) (processed : Nat) (st : Catalog J),
      countId (downloadLoop dl now w maxV ch entries processed st) x ≤
        max (countId st x) 1 := by
  intro entries
  induction entries with
  | nil =>
    intro processed st
    exact le_max_left _ _
  | cons e rest ih =>
    intro processed st
    rw [downloadLoop]
    split
    · exact le_max_left _ _
    · split
      · exact ih _ _
      · rename_i hcap hany
        refine le_trans (ih _ _) ?_
        have h1 := countId_afterEntry dl now w ch st e x
        by_cases hx : (e.id == x) = true
        · have h0 : countId st x = 0 := by
            have hxx : e.id = x := by simpa using hx
            exact hxx ▸ countId_eq_zero_of_any_eq_false (eq_false_of_ne_true hany)
          simp [h1, hx, h0]
        · simp [h1, hx]

theorem countId_download_channel_videos_le (dl : String → Bool) (now w : String)
    (maxV : Nat) (entries : List Entry) (cid : String) (st : Catalog J) (x : String) :
    countId (download_channel_videos dl now w maxV entries cid st) x ≤
      max (countId st x) 1 := by
  unfold download_channel_videos
  split
  · exact countId_downloadLoop_le dl now w maxV _ x _ 0 st
  · exact le_max_left _ _

/-! ### Lemmas about prompt rendering -/

theorem isPrefixOf_self (l : List Char) : l.isPrefixOf l = true := by
  induction l with
  | nil => rfl
  | cons c cs ih => simp [List.isPrefixOf, ih]

theorem replaceFuel_append_of_notMem {p : Char} (ps rep : List Char) :
    ∀ (xs : List Char) (f : Nat) (ys : List Char), p ∉ xs →
      replaceFuel p ps rep (xs.length + f) (xs ++ ys) = xs ++ replaceFuel p ps rep f ys := by
  intro xs
  induction xs with
  | nil => intro f ys _; simp
  | cons c xs ih =>
    intro f ys h
    have hne : ¬ (p == c) = true := by
      simp only [beq_iff_eq]
      intro hc
      exact h (by simp [hc])
    have hlen : (c :: xs).length + f = (xs.length + f) + 1 := by
      simp [List.length_cons]
      omega
    rw [hlen, List.cons_append, replaceFuel,
      if_neg (by simp [List.isPrefixOf, hne]),
      ih f ys (fun hm => h (List.mem_cons_of_mem c hm))]
    rfl

theorem replaceFuel_at_occurrence (p : Char) (ps rep : List Char) (f : Nat) :
    replaceFuel p ps rep (f + 1) (p :: ps) = rep := by
  rw [replaceFuel, if_pos (isPrefixOf_self (p :: ps)), List.drop_length]
  simp only [replaceFuel]
  exact List.append_nil rep

/-- Substituting into a template that is a brace-free prefix followed by
exactly the placeholder yields that prefix followed by the argument. -/
theorem pyFormat_eq_of_split (tmpl pre arg : String)
    (h1 : tmpl.toList = pre.toList ++ "{transcript}".toList)
    (h2 : ('\x7b' : Char) ∉ pre.toList) :
    pyFormat tmpl arg = pre ++ arg := by
  show String.mk
      (replaceFuel '\x7b' "transcript\x7d".toList arg.toList tmpl.toList.length tmpl.toList) =
    pre ++ arg
  have hlen : tmpl.toList.length = pre.toList.length + 12 := by
    rw [h1]
    simp
  rw [hlen, h1,
    replaceFuel_append_of_notMem "transcript\x7d".toList arg.toList pre.toList 12
      "{transcript}".toList h2,
    show ("{transcript}".toList : List Char) = '\x7b' :: "transcript\x7d".toList from rfl,
    show (12 : Nat) = 11 + 1 from rfl,
    replaceFuel_at_occurrence]
  rfl

set_option maxRecDepth 40000

/-- Each of the four templates renders as its fixed surrounding text
followed by the (already truncated) transcript text. -/
theorem renderedPrompt_eq (ty : ProcessType) (text : String) :
    renderedPrompt ty text = promptPrefix ty ++ pySlice text 8000 := by
  cases ty <;> exact pyFormat_eq_of_split _ _ _ (by decide) (by decide)

/-! ### Referential well-formedness of the catalog -/

/-- Every `transcripts` row references an existing `videos` row and every
`processed_content` row references an existing `transcripts` row. -/
def refsOk (st : Catalog J) : Bool :=
  st.transcripts.all (fun t => st.videos.any (fun v => v.id == t.video_id)) &&
  st.artifacts.all (fun a => st.transcripts.any (fun t => t.id == a.transcript_id))

theorem refsOk_process_transcript (jsonParse : String → Option J)
    (oracle : ProcessType → String → Except Unit LLMResp) (now : String)
    (readResult : Except Unit String) (path : String) (st : Catalog J)
    (h : refsOk st = true) :
    refsOk (process_transcript jsonParse oracle now readResult path st) = true := by
  cases readResult with
  | error e => exact h
  | ok text =>
    cases hm : find_video_by_filename st.videos path with
    | none =>
      have heq : process_transcript jsonParse oracle now (.ok text) path st = st := by
        unfold process_transcript
        simp [hm]
      rw [heq]
      exact h
    | some video =>
      rw [process_transcript_of_match jsonParse oracle now text path st video hm]
      simp only [refsOk, Bool.and_eq_true, List.all_eq_true] at h ⊢
      obtain ⟨h1, h2⟩ := h
      constructor
      · intro t ht
        rcases List.mem_append.mp ht with ht | ht
        · exact h1 t ht
        · have hteq : t = newTranscriptRow now text st.nextTid video.id := by simpa using ht
        
          subst hteq
          have hv := find_video_by_filename_mem hm
          simp only [newTranscriptRow, List.any_eq_true]
          exact ⟨video, hv, by simp⟩
      · intro a ha
        rcases List.mem_append.mp ha with ha | ha
        · have := h2 a ha
          rw [List.any_append]
          simp [this]
        · rcases List.mem_filterMap.mp ha with ⟨ty, _, hsome⟩
          rcases Option.map_eq_some'.mp hsome with ⟨r, _, hmk⟩
          have hid : a.transcript_id = st.nextTid := by
            rw [← hmk]
            rfl
          rw [List.any_append]
          simp [newTranscriptRow, hid]

theorem scan_single_file (jsonParse : String → Option J)
    (oracle : ProcessType → String → Except Unit LLMResp) (now content path : String)
    (st : Catalog J) (video : Video)
    (hmatch : find_video_by_filename st.videos path = some video)
    (hnew : (st.transcripts.any fun t => t.video_id == video.id) = false) :
    scan_existing_transcripts jsonParse oracle now [(path, .ok content)] st =
      process_transcript jsonParse oracle now (.ok content) path st := by
  unfold scan_existing_transcripts
  rw [List.foldl_cons, List.foldl_nil]
  simp only [hmatch]
  rw [if_neg (by rw [hnew]; exact Bool.false_ne_true)]

theorem countP_transcripts_of_match (jsonParse : String → Option J)
    (oracle : ProcessType → String → Except Unit LLMResp) (now content path : String)
    (st : Catalog J) (video : Video)
    (hmatch : find_video_by_filename st.videos path = some video) :
    (process_transcript jsonParse oracle now (.ok content) path st).transcripts.countP
        (fun t => t.video_id == video.id) =
      st.transcripts.countP (fun t => t.video_id == video.id) + 1 := by
  rw [process_transcript_of_match jsonParse oracle now content path st video hmatch]
  simp [List.countP_append, List.countP_cons, newTranscriptRow]

/-! ### Concrete fixtures used by the closed theorems -/

/-- A `json.loads` stand-in on which every parse fails. -/
def noJson : String → Option Unit := fun _ => none

/-- An inference oracle on which every call raises. -/
def failLLM : ProcessType → String → Except Unit LLMResp := fun _ _ => .error ()

/-- A fixed successful inference response. -/
def stubResp : LLMResp := { content := "ok", total_tokens := some 5, elapsed_ms := 3 }

/-- An inference oracle failing exactly on the `insights` task. -/
def insightsFailLLM : ProcessType → String → Except Unit LLMResp :=
  fun ty _ => if ty == .insights then .error () else .ok stubResp

/-- An inference response whose text is not valid JSON. -/
def badJsonResp : LLMResp := { content := "not json", total_tokens := none, elapsed_ms := 2 }

/-- An inference oracle always returning the invalid-JSON response. -/
def badJsonLLM : ProcessType → String → Except Unit LLMResp := fun _ _ => .ok badJsonResp

/-- The catalogued video of the §8 matching example. -/
def introVideo : Video :=
  { id := 1, channel_id := 1, video_id := "yt1", title := "Intro to Systems"
    description := "", duration := 0, upload_date := none, thumbnail_url := ""
    video_url := "", download_status := "completed" }

/-- A video whose title differs from the §8 example exactly at the
underscore positions of the filename fragment. -/
def mangledVideo : Video :=
  { introVideo with id := 2, video_id := "yt2", title := "IntroXtoYSystems" }

/-- The transcript artifact name of the §8 matching example. -/
def introPath : String := "20240101_Intro_to_Systems_transcript.txt"

/-- A watch-loop catalog holding the example video and no transcripts. -/
def watchCatalog : Catalog Unit :=
  { channels := [], videos := [introVideo], transcripts := [], artifacts := []
    nextVid := 3, nextTid := 1 }

/-- A transcript of 50,000 characters. -/
def longText : String := String.mk (List.replicate 50000 'a')

/-- The channel of the §8 acquisition scenario. -/
def demoChannel : Channel :=
  { id := 7, channel_id := "abc123", channel_name := "Chan"
    channel_url := "https://www.youtube.com/channel/abc123", is_active := true }

/-- The already-catalogued video of the §8 acquisition scenario. -/
def cataloguedVideo : Video :=
  { id := 0, channel_id := 7, video_id := "v2", title := "Second"
    description := "", duration := 0, upload_date := none, thumbnail_url := ""
    video_url := "", download_status := "completed" }

/-- The acquisition catalog before the §8 scenario run. -/
def acqCatalog : Catalog Unit :=
  { channels := [demoChannel], videos := [cataloguedVideo], transcripts := []
    artifacts := [], nextVid := 1, nextTid := 0 }

/-- The three remote entries of the §8 acquisition scenario. -/
def entryOne : Entry :=
  { id := "v1", title := some "First", description := none, duration := none
    upload_date := some "20240101", thumbnail := none, channel := some "Chan" }

def entryTwo : Entry := { entryOne with id := "v2", title := some "Second" }

def entryThree : Entry := { entryOne with id := "v3", title := some "Third" }

/-- A fetch engine failing exactly on entry `v3`. -/
def demoDl : String → Bool := fun i => i != "v3"

/-- The catalog after the §8 acquisition scenario run. -/
def acqFinal : Catalog Unit :=
  download_channel_videos demoDl "2024-01-02T00:00:00" "/watched" 10
    [entryOne, entryTwo, entryThree] "abc123" acqCatalog

/-! ### Claim theorems -/

/-- C1 counterexample: with the §8 video catalogued and no transcript,
the startup scan processes the artifact once (one `transcripts` row for
the video), but a later duplicate live creation event for the very same
artifact runs `process_transcript` again and inserts a second
`transcripts` row for that video — contradicting the claim that no
second Transcript row is inserted. -/
theorem duplicate_event_inserts_second_transcript_row :
    ((scan_existing_transcripts noJson failLLM "T0"
        [(introPath, .ok "hello world")] watchCatalog).transcripts.countP
        (fun t => t.video_id == introVideo.id) = 1) ∧
    ((on_created noJson failLLM "T1" false introPath (.ok "hello world")
        (scan_existing_transcripts noJson failLLM "T0"
          [(introPath, .ok "hello world")] watchCatalog)).transcripts.countP
        (fun t => t.video_id == introVideo.id) = 2) := by
  constructor
  · decide
  · decide

/-- C1 (amended): an artifact present before the Watch Loop starts whose
matched Video has no Transcript is processed exactly once by the startup
reconciliation scan (its existence check holds); but a later duplicate
live creation event for the same artifact invokes the pipeline again —
the live path has no existence check — and a second Transcript row is
inserted for the same Video. -/
theorem startup_scan_once_live_event_reinserts (jsonParse : String → Option J)
    (oracle : ProcessType → String → Except Unit LLMResp)
    (now now2 content path : String) (st : Catalog J) (video : Video)
    (hmatch : find_video_by_filename st.videos path = some video)
    (hnew : (st.transcripts.any fun t => t.video_id == video.id) = false)
    (hname : pyEndsWith path "_transcript.txt" = true) :
    ((scan_existing_transcripts jsonParse oracle now [(path, .ok content)] st).transcripts.countP
        (fun t => t.video_id == video.id) = 1) ∧
    ((on_created jsonParse oracle now2 false path (.ok content)
        (scan_existing_transcripts jsonParse oracle now [(path, .ok content)] st)).transcripts.countP
        (fun t => t.video_id == video.id) = 2) := by
  have hcount0 : st.transcripts.countP (fun t => t.video_id == video.id) = 0 := by
    rw [List.countP_eq_zero]
    intro t ht
    exact (List.any_eq_false.mp hnew) t ht
  have hscan := scan_single_file jsonParse oracle now content path st video hmatch hnew
  have h1 : (scan_existing_transcripts jsonParse oracle now [(path, .ok content)] st).transcripts.countP
      (fun t => t.video_id == video.id) = 1 := by
    rw [hscan, countP_transcripts_of_match jsonParse oracle now content path st video hmatch,
      hcount0]
  refine ⟨h1, ?_⟩
  have hvids : (scan_existing_transcripts jsonParse oracle now [(path, .ok content)] st).videos
      = st.videos := by
    rw [hscan]
    exact process_transcript_videos jsonParse oracle now (.ok content) path st
  have hmatch2 : find_video_by_filename
      (scan_existing_transcripts jsonParse oracle now [(path, .ok content)] st).videos path
      = some video := by
    rw [hvids]
    exact hmatch
  have hoc : on_created jsonParse oracle now2 false path (.ok content)
      (scan_existing_transcripts jsonParse oracle now [(path, .ok content)] st) =
      process_transcript jsonParse oracle now2 (.ok content) path
        (scan_existing_transcripts jsonParse oracle now [(path, .ok content)] st) := by
    unfold on_created
    simp [hname]
  rw [hoc, countP_transcripts_of_match jsonParse oracle now2 content path _ video hmatch2, h1]

/-- C1 (amended) witness: the amended behaviour at the concrete §8
fixtures. -/
theorem startup_scan_once_live_event_reinserts_witness :
    (find_video_by_filename watchCatalog.videos introPath = some introVideo) ∧
    ((watchCatalog.transcripts.any fun t => t.video_id == introVideo.id) = false) ∧
    (pyEndsWith introPath "_transcript.txt" = true) ∧
    (((scan_existing_transcripts noJson failLLM "T0"
        [(introPath, .ok "hi")] watchCatalog).transcripts.countP
        (fun t => t.video_id == introVideo.id) = 1) ∧
      ((on_created noJson failLLM "T1" false introPath (.ok "hi")
        (scan_existing_transcripts noJson failLLM "T0"
          [(introPath, .ok "hi")] watchCatalog)).transcripts.countP
        (fun t => t.video_id == introVideo.id) = 2)) :=
  ⟨by decide, by decide, by decide,
    startup_scan_once_live_event_reinserts noJson failLLM "T0" "T1" "hi" introPath
      watchCatalog introVideo (by decide) (by decide) (by decide)⟩

/-- C2: per channel, running the acquisition against the same remote
entry list twice leaves at most `max (initial count) 1` rows per external
video identifier — in particular at most one row per identifier when
starting without duplicates, since an entry is skipped whenever a row
with its identifier exists. -/
theorem acquisition_twice_at_most_one_video_row (dl1 dl2 : String → Bool)
    (now1 now2 w : String) (maxV : Nat) (entries : List Entry) (cid : String)
    (st : Catalog J) (x : String) :
    countId (download_channel_videos dl2 now2 w maxV entries cid
      (download_channel_videos dl1 now1 w maxV entries cid st)) x ≤
      max (countId st x) 1 := by
  refine le_trans (countId_download_channel_videos_le dl2 now2 w maxV entries cid _ x) ?_
  have h1 := countId_download_channel_videos_le dl1 now1 w maxV entries cid st x
  refine le_trans (max_le_max h1 (le_refl 1)) ?_
  rw [max_assoc, max_self]

/-- C3: if exactly one of the four derivation tasks raises, every other
task still runs to completion and appends its `processed_content` row for
the same transcript. -/
theorem fanout_failure_isolation (jsonParse : String → Option J)
    (oracle : ProcessType → String → Except Unit LLMResp)
    (tid : Nat) (text : String) (st : Catalog J)
    (ty0 ty : ProcessType) (resp : ProcessType → LLMResp)
    (hfail : oracle ty0 (renderedPrompt ty0 text) = .error ())
    (hok : ∀ ty2, ty2 ≠ ty0 → oracle ty2 (renderedPrompt ty2 text) = .ok (resp ty2))
    (hne : ty ≠ ty0) :
    mkArtifact jsonParse tid ty (resp ty) ∈
      (process_with_ai jsonParse oracle tid text st).artifacts ∧
    (mkArtifact jsonParse tid ty (resp ty)).transcript_id = tid ∧
    (mkArtifact jsonParse tid ty (resp ty)).processing_type = ty := by
  refine ⟨?_, rfl, rfl⟩
  rw [process_with_ai_eq]
  apply List.mem_append_right
  apply List.mem_filterMap.mpr
  refine ⟨ty, ?_, ?_⟩
  · cases ty <;> simp [processTypes]
  · rw [hok ty hne]
    rfl

/-- C3 witness: with an oracle failing exactly on `insights`, the
`summary` task's artifact row is present. -/
theorem fanout_failure_isolation_witness :
    (insightsFailLLM .insights (renderedPrompt .insights "t") = .error ()) ∧
    mkArtifact noJson 9 .summary stubResp ∈
      (process_with_ai noJson insightsFailLLM 9 "t" watchCatalog).artifacts :=
  ⟨rfl,
    (fanout_failure_isolation noJson insightsFailLLM 9 "t" watchCatalog .insights .summary
      (fun _ => stubResp) rfl
      (fun ty2 h => by cases ty2 <;> first | rfl | exact absurd rfl h)
      (by simp)).1⟩

/-- C4: for a transcript text longer than 8,000 characters, every
rendered prompt is the template's fixed text followed by exactly the
first 8,000 characters of the text, while the inserted `transcripts` row
retains the full original text unmodified. -/
theorem prompt_truncation_full_retention (jsonParse : String → Option J)
    (oracle : ProcessType → String → Except Unit LLMResp) (now : String)
    (text path : String) (st : Catalog J) (video : Video) (ty : ProcessType)
    (hlen : 8000 < text.length)
    (hmatch : find_video_by_filename st.videos path = some video) :
    renderedPrompt ty text = promptPrefix ty ++ pySlice text 8000 ∧
    (pySlice text 8000).length = 8000 ∧
    newTranscriptRow now text st.nextTid video.id ∈
      (process_transcript jsonParse oracle now (.ok text) path st).transcripts ∧
    (newTranscriptRow now text st.nextTid video.id).raw_transcript = text := by
  refine ⟨renderedPrompt_eq ty text, ?_, ?_, rfl⟩
  · show (text.toList.take 8000).length = 8000
    rw [List.length_take]
    have hh : text.toList.length = text.length := rfl
    omega
  · rw [process_transcript_of_match jsonParse oracle now text path st video hmatch]
    simp

/-- C4 witness: the 50,000-character transcript at the concrete
fixtures, for the `summary` prompt. -/
theorem prompt_truncation_full_retention_witness :
    (8000 < longText.length) ∧
    (find_video_by_filename watchCatalog.videos introPath = some introVideo) ∧
    (renderedPrompt .summary longText = promptPrefix .summary ++ pySlice longText 8000 ∧
      (pySlice longText 8000).length = 8000 ∧
      newTranscriptRow "T0" longText watchCatalog.nextTid introVideo.id ∈
        (process_transcript noJson failLLM "T0" (.ok longText) introPath
          watchCatalog).transcripts ∧
      (newTranscriptRow "T0" longText watchCatalog.nextTid introVideo.id).raw_transcript =
        longText) := by
  have hlen : 8000 < longText.length := by
    show 8000 < (List.replicate 50000 'a').length
    rw [List.length_replicate]
    omega
  exact ⟨hlen, by decide,
    prompt_truncation_full_retention noJson failLLM "T0" longText introPath watchCatalog
      introVideo .summary hlen (by decide)⟩

/-- C6: an `insights` response whose text fails the JSON parse does not
raise; the task appends exactly one artifact row whose content wraps the
raw response text. -/
theorem insights_parse_fallback (jsonParse : String → Option J)
    (oracle : ProcessType → String → Except Unit LLMResp)
    (tid : Nat) (text : String) (st : Catalog J) (resp : LLMResp)
    (hok : oracle .insights (renderedPrompt .insights text) = .ok resp)
    (hbad : jsonParse resp.content = none) :
    (processTask jsonParse oracle tid text st .insights).artifacts =
      st.artifacts ++ [mkArtifact jsonParse tid .insights resp] ∧
    (mkArtifact jsonParse tid .insights resp).content = Content.raw resp.content := by
  constructor
  · rw [processTask_eq, hok]
    rfl
  · simp [mkArtifact, parseContent, hbad]

/-- C6 witness: the invalid-JSON response at the concrete fixtures. -/
theorem insights_parse_fallback_witness :
    (noJson badJsonResp.content = none) ∧
    ((processTask noJson badJsonLLM 4 "text" watchCatalog .insights).artifacts =
        watchCatalog.artifacts ++ [mkArtifact noJson 4 .insights badJsonResp] ∧
      (mkArtifact noJson 4 .insights badJsonResp).content = Content.raw badJsonResp.content) :=
  ⟨rfl, insights_parse_fallback noJson badJsonLLM 4 "text" watchCatalog badJsonResp rfl rfl⟩

/-- C5: the matcher resolves the §8 artifact name to the stored video
titled "Intro to Systems" (the title-fragment pattern matches it, first
row wins), and any artifact name containing no underscore separator
yields not-found against every catalog. -/
theorem matcher_resolution (videos : List Video) (path : String)
    (hnou : '_' ∉ path.toList) :
    find_video_by_filename [introVideo] introPath = some introVideo ∧
    find_video_by_filename videos path = none :=
  ⟨by decide, find_video_of_no_underscore videos path hnou⟩

/-- C5 witness: a concrete separator-free artifact name. -/
theorem matcher_resolution_witness :
    ('_' ∉ "noseparator.txt".toList) ∧
    (find_video_by_filename [introVideo] introPath = some introVideo ∧
      find_video_by_filename [introVideo] "noseparator.txt" = none) :=
  ⟨by decide, matcher_resolution [introVideo] "noseparator.txt" (by decide)⟩

/-- C7: a new entry is handled in isolation — on fetch success its row
ends `completed` with timestamp and file path, on fetch failure it ends
`failed`, and in both cases the loop continues with the remaining
entries; in the §8 scenario (three remote entries, one already
catalogued, `v3`'s download failing) exactly two rows are inserted, one
ending `completed` and the other `failed`. -/
theorem per_entry_outcome_and_isolation (dl : String → Bool) (now w : String)
    (maxV ch : Nat) (e : Entry) (rest : List Entry) (processed : Nat) (st : Catalog J)
    (hcap : processed < maxV)
    (hnew : (st.videos.any fun v => v.video_id == e.id) = false) :
    (downloadLoop dl now w maxV ch (e :: rest) processed st =
      downloadLoop dl now w maxV ch rest
        (if dl e.id then processed + 1 else processed)
        (afterEntry dl now w ch st e)) ∧
    (∃ v ∈ (afterEntry dl now w ch st e).videos,
       v.video_id = e.id ∧
       (dl e.id = true →
          v.download_status = "completed" ∧ v.downloaded_at = some now ∧
          v.file_path = some (downloadedFilePath w e)) ∧
       (dl e.id = false → v.download_status = "failed" ∧ v.downloaded_at = none)) ∧
    (acqFinal.videos.map (fun v => (v.video_id, v.download_status)) =
      [("v2", "completed"), ("v1", "completed"), ("v3", "failed")]) ∧
    (acqFinal.videos.length = 3) ∧
    ((acqFinal.videos.filter (fun v => v.video_id == "v1")).map
        (fun v => (v.downloaded_at, v.file_path)) =
      [(some "2024-01-02T00:00:00", some "/watched/Chan/20240101_First.mp4")]) := by
  refine ⟨?_, ?_, by decide, by decide, by decide⟩
  · rw [downloadLoop, if_neg (Nat.not_le.mpr hcap),
      if_neg (show ¬(st.videos.any fun v => v.video_id == e.id) = true by
        rw [hnew]; exact Bool.false_ne_true)]
  · by_cases hdl : dl e.id = true
    · simp only [afterEntry]
      rw [if_pos hdl]
      simp only [updateCompleted, insertVideo]
      refine ⟨_, List.mem_map_of_mem _ (List.mem_append_right _ (List.mem_cons_self _ _)),
        ?_, ?_, ?_⟩
      · simp
      · intro _
        refine ⟨?_, ?_, ?_⟩ <;> simp
      · intro hc
        exact absurd hc (by simp [hdl])
    · have hdlf : dl e.id = false := eq_false_of_ne_true hdl
      simp only [afterEntry]
      rw [if_neg hdl]
      simp only [updateFailed, insertVideo]
      refine ⟨_, List.mem_map_of_mem _ (List.mem_append_right _ (List.mem_cons_self _ _)),
        ?_, ?_, ?_⟩
      · simp
      · intro hc
        exact absurd hc (by simp [hdlf])
      · intro _
        constructor <;> simp

/-- C7 witness: the first scenario entry against the scenario catalog. -/
theorem per_entry_outcome_and_isolation_witness :
    (0 < 10) ∧
    ((acqCatalog.videos.any fun v => v.video_id == entryOne.id) = false) ∧
    (downloadLoop demoDl "2024-01-02T00:00:00" "/watched" 10 7
        (entryOne :: [entryTwo, entryThree]) 0 acqCatalog =
      downloadLoop demoDl "2024-01-02T00:00:00" "/watched" 10 7 [entryTwo, entryThree]
        (if demoDl entryOne.id then 0 + 1 else 0)
        (afterEntry demoDl "2024-01-02T00:00:00" "/watched" 7 acqCatalog entryOne)) ∧
    (∃ v ∈ (afterEntry demoDl "2024-01-02T00:00:00" "/watched" 7 acqCatalog entryOne).videos,
       v.video_id = entryOne.id ∧
       (demoDl entryOne.id = true →
          v.download_status = "completed" ∧ v.downloaded_at = some "2024-01-02T00:00:00" ∧
          v.file_path = some (downloadedFilePath "/watched" entryOne)) ∧
       (demoDl entryOne.id = false → v.download_status = "failed" ∧ v.downloaded_at = none)) := by
  have h := per_entry_outcome_and_isolation demoDl "2024-01-02T00:00:00" "/watched" 10 7
    entryOne [entryTwo, entryThree] 0 acqCatalog (by decide) (by decide)
  exact ⟨by decide, by decide, h.1, h.2.1⟩

/-- C8: in every processor step, a `transcripts` row is only inserted
with a `video_id` of an existing `videos` row (the matcher resolved it
first) and a `processed_content` row is only inserted with the
`transcript_id` of an existing `transcripts` row, so referential
well-formedness of the catalog is preserved by `process_transcript`. -/
theorem creation_order_invariant (jsonParse : String → Option J)
    (oracle : ProcessType → String → Except Unit LLMResp) (now : String)
    (readResult : Except Unit String) (path : String) (st : Catalog J)
    (h : refsOk st = true) :
    refsOk (process_transcript jsonParse oracle now readResult path st) = true :=
  refsOk_process_transcript jsonParse oracle now readResult path st h

/-- C8 witness: a concrete well-formed catalog stays well-formed through
a full processing step that inserts a transcript and three artifacts. -/
theorem creation_order_invariant_witness :
    (refsOk watchCatalog = true) ∧
    (refsOk (process_transcript noJson insightsFailLLM "T0" (.ok "hi there") introPath
        watchCatalog) = true) :=
  ⟨by decide,
    creation_order_invariant noJson insightsFailLLM "T0" (.ok "hi there") introPath
      watchCatalog (by decide)⟩

/-- C9: the matcher's comparison is SQL ILIKE, not literal substring
containment — each underscore of the fragment matches any single
character, so `"Intro_to_Systems"` matches the title
`"Intro to Systems"` (where a literal case-insensitive substring check
fails) and equally any title differing at the underscore positions,
widening the set of videos an artifact name can resolve to. -/
theorem matcher_is_ilike_not_substring :
    (ilike ("%" ++ pySlice "Intro_to_Systems" 20 ++ "%") "Intro to Systems" = true) ∧
    (substringCI "Intro_to_Systems" "Intro to Systems" = false) ∧
    (ilike ("%" ++ pySlice "Intro_to_Systems" 20 ++ "%") "IntroXtoYSystems" = true) ∧
    (find_video_by_filename [introVideo] introPath = some introVideo) ∧
    (find_video_by_filename [mangledVideo] introPath = some mangledVideo) := by
  refine ⟨by decide, by decide, by decide, by decide, by decide⟩

/-- C10: `process_transcript` returns normally with the catalog
unchanged both when reading the artifact raises (the outer `except`
catches it before any insert) and when no video is matched (early
return), so a bad artifact inserts no `transcripts` and no
`processed_content` row. -/
theorem process_transcript_no_propagation (jsonParse : String → Option J)
    (oracle : ProcessType → String → Except Unit LLMResp) (now : String)
    (e : Unit) (path text : String) (st : Catalog J)
    (hmiss : find_video_by_filename st.videos path = none) :
    process_transcript jsonParse oracle now (.error e) path st = st ∧
    process_transcript jsonParse oracle now (.ok text) path st = st := by
  constructor
  · rfl
  · unfold process_transcript
    simp [hmiss]

/-- C10 witness: a separator-free artifact name against the concrete
catalog — neither the failed read nor the unmatched read changes it. -/
theorem process_transcript_no_propagation_witness :
    (find_video_by_filename watchCatalog.videos "noseparator.txt" = none) ∧
    (process_transcript noJson failLLM "T0" (.error ()) "noseparator.txt" watchCatalog =
      watchCatalog) ∧
    (process_transcript noJson failLLM "T0" (.ok "x") "noseparator.txt" watchCatalog =
      watchCatalog) := by
  have h := process_transcript_no_propagation noJson failLLM "T0" () "noseparator.txt" "x"
    watchCatalog (by decide)
  exact ⟨by decide, h.1, h.2⟩
